import Mathlib

/-!
# Verification of `rename.py` (date-renamer)

A shallow embedding of the core logic of `src/rename.py`, a tool that
renames image files to the date they were taken, together with proofs
of the specified properties.

Conventions of the embedding:
* Python `datetime.datetime` values are modelled to seconds precision
  by `PyDateTime`.
* `strftime` with the patterns used by the program is modelled by
  `strftime` over the pattern's character list; `strptime` with the two
  fixed patterns is modelled by `strptimeExif` / `strptimeRename`.
* The filesystem is modelled by `FS`: the list of existing paths plus a
  list of paths on which a rename is denied (modelling genuine I/O
  failures such as permission errors).  `os.rename` is modelled by
  `osRename`: a rename whose destination equals its source succeeds as
  a no-op (POSIX mandates this, and Windows permits same-file renames),
  while a distinct destination that already exists fails with
  `fileExists` — the condition the code's `FileExistsError` handler
  targets (on POSIX such a rename would instead silently replace the
  destination; that platform variant is outside this model).
* Mutation of the Python `File` object becomes explicit state passing:
  methods take and return the `File` record and the `FS`.
-/

/-- Python `datetime.datetime` to seconds precision. -/
structure PyDateTime where
  year : Nat
  month : Nat
  day : Nat
  hour : Nat
  minute : Nat
  second : Nat
deriving DecidableEq, Repr

/-- Python `datetime` comparison: lexicographic on the fields. -/
def PyDateTime.lt (a b : PyDateTime) : Bool :=
  if a.year ≠ b.year then a.year < b.year
  else if a.month ≠ b.month then a.month < b.month
  else if a.day ≠ b.day then a.day < b.day
  else if a.hour ≠ b.hour then a.hour < b.hour
  else if a.minute ≠ b.minute then a.minute < b.minute
  else a.second < b.second

/-- Field ranges of a real `datetime` value (the day-of-month bound is
abstracted to 31; every calendar-valid datetime satisfies this). -/
def PyDateTime.Valid (d : PyDateTime) : Prop :=
  1 ≤ d.year ∧ d.year ≤ 9999 ∧ 1 ≤ d.month ∧ d.month ≤ 12 ∧
  1 ≤ d.day ∧ d.day ≤ 31 ∧ d.hour ≤ 23 ∧ d.minute ≤ 59 ∧ d.second ≤ 59

instance (d : PyDateTime) : Decidable d.Valid := by
  unfold PyDateTime.Valid; infer_instance

/-- Two decimal digits, zero padded (`strftime` field rendering). -/
def pad2 (n : Nat) : List Char :=
  [Nat.digitChar (n / 10 % 10), Nat.digitChar (n % 10)]

/-- Four decimal digits, zero padded (`strftime` `%Y` for years ≤ 9999). -/
def pad4 (n : Nat) : List Char :=
  [Nat.digitChar (n / 1000 % 10), Nat.digitChar (n / 100 % 10),
   Nat.digitChar (n / 10 % 10), Nat.digitChar (n % 10)]

/-- Rendering of a single `strftime` directive character. -/
def directive (c : Char) (d : PyDateTime) : List Char :=
  if c = 'Y' then pad4 d.year
  else if c = 'm' then pad2 d.month
  else if c = 'd' then pad2 d.day
  else if c = 'H' then pad2 d.hour
  else if c = 'M' then pad2 d.minute
  else if c = 'S' then pad2 d.second
  else if c = '%' then ['%']
  else ['%', c]

/-- `datetime.strftime` over the pattern's characters: `%` introduces a
directive, any other character is copied verbatim. -/
def strftimeChars : List Char → PyDateTime → List Char
  | [], _ => []
  | '%' :: c :: rest, d => directive c d ++ strftimeChars rest d
  | c :: rest, d => c :: strftimeChars rest d

/-- `datetime.strftime` in terms of strings. -/
def strftime (pattern : String) (d : PyDateTime) : String :=
  ⟨strftimeChars pattern.data d⟩

/-- The EXIF source pattern of `DateTimeOriginal.format`. -/
def exifPattern : String := "%Y:%m:%d %H:%M:%S"

/-- The default rename pattern of `Photo.date_format`. -/
def renamePattern : String := "%Y-%m-%d %H.%M.%S"

/-- Numeric value of a decimal digit character, if it is one. -/
def digit? (c : Char) : Option Nat :=
  if '0' ≤ c ∧ c ≤ '9' then some (c.toNat - 48) else none

/-- Read two decimal digit characters as a number. -/
def read2 (a b : Char) : Option Nat := do
  let a ← digit? a
  let b ← digit? b
  pure (a * 10 + b)

/-- Read four decimal digit characters as a number. -/
def read4 (a b c d : Char) : Option Nat := do
  let a ← digit? a
  let b ← digit? b
  let c ← digit? c
  let d ← digit? d
  pure (a * 1000 + b * 100 + c * 10 + d)

/-- Shared shape of the two fixed patterns: 19 characters, the six
numeric fields at fixed positions separated by `s1 … s5`.  Field range
checks model `strptime`'s validation of each directive's value. -/
def parseFixedChars (s1 s2 s3 s4 s5 : Char) : List Char → Option PyDateTime
  | [y1, y2, y3, y4, c1, m1, m2, c2, d1, d2, c3, h1, h2, c4, n1, n2, c5, e1, e2] =>
    if c1 = s1 ∧ c2 = s2 ∧ c3 = s3 ∧ c4 = s4 ∧ c5 = s5 then do
      let y ← read4 y1 y2 y3 y4
      let mo ← read2 m1 m2
      let da ← read2 d1 d2
      let h ← read2 h1 h2
      let mi ← read2 n1 n2
      let se ← read2 e1 e2
      if 1 ≤ mo ∧ mo ≤ 12 ∧ 1 ≤ da ∧ da ≤ 31 ∧ h ≤ 23 ∧ mi ≤ 59 ∧ se ≤ 59 then
        some ⟨y, mo, da, h, mi, se⟩
      else none
    else none
  | _ => none

/-- `datetime.strptime` with the fixed EXIF pattern `"%Y:%m:%d %H:%M:%S"`. -/
def strptimeExif (s : String) : Option PyDateTime :=
  parseFixedChars ':' ':' ' ' ':' ':' s.data

/-- `datetime.strptime` with the inverse of the default rename pattern
`"%Y-%m-%d %H.%M.%S"`. -/
def strptimeRename (s : String) : Option PyDateTime :=
  parseFixedChars '-' '-' ' ' '.' '.' s.data

/-- The shape that `strftime` produces for either of the two fixed
patterns: the six zero-padded fields separated by `s1 … s5`. -/
def encodeFixed (s1 s2 s3 s4 s5 : Char) (d : PyDateTime) : List Char :=
  pad4 d.year ++ s1 :: (pad2 d.month ++ s2 :: (pad2 d.day ++
    s3 :: (pad2 d.hour ++ s4 :: (pad2 d.minute ++ s5 :: pad2 d.second))))

theorem digit?_digitChar : ∀ n < 10, digit? (Nat.digitChar n) = some n := by
  decide

theorem read2_pad2 (n : Nat) (h : n < 100) :
    read2 (Nat.digitChar (n / 10 % 10)) (Nat.digitChar (n % 10)) = some n := by
  rw [read2, digit?_digitChar _ (Nat.mod_lt _ (by omega)),
    digit?_digitChar _ (Nat.mod_lt _ (by omega))]
  simp only [Option.bind_eq_bind, Option.some_bind, Option.pure_def,
    Option.some.injEq]
  omega

theorem read4_pad4 (n : Nat) (h : n < 10000) :
    read4 (Nat.digitChar (n / 1000 % 10)) (Nat.digitChar (n / 100 % 10))
      (Nat.digitChar (n / 10 % 10)) (Nat.digitChar (n % 10)) = some n := by
  rw [read4, digit?_digitChar _ (Nat.mod_lt _ (by omega)),
    digit?_digitChar _ (Nat.mod_lt _ (by omega)),
    digit?_digitChar _ (Nat.mod_lt _ (by omega)),
    digit?_digitChar _ (Nat.mod_lt _ (by omega))]
  simp only [Option.bind_eq_bind, Option.some_bind, Option.pure_def,
    Option.some.injEq]
  omega

theorem parseFixedChars_encodeFixed (s1 s2 s3 s4 s5 : Char) (d : PyDateTime)
    (h : d.Valid) :
    parseFixedChars s1 s2 s3 s4 s5 (encodeFixed s1 s2 s3 s4 s5 d) = some d := by
  obtain ⟨hy1, hy2, hm1, hm2, hd1, hd2, hh, hmi, hs⟩ := h
  simp only [encodeFixed, pad4, pad2, List.cons_append, List.nil_append]
  simp only [parseFixedChars]
  rw [if_pos (by simp)]
  rw [read4_pad4 _ (by omega), read2_pad2 _ (by omega), read2_pad2 _ (by omega),
    read2_pad2 _ (by omega), read2_pad2 _ (by omega), read2_pad2 _ (by omega)]
  simp only [Option.bind_eq_bind, Option.some_bind]
  rw [if_pos (by omega)]

theorem strftimeChars_exifPattern (d : PyDateTime) :
    strftimeChars exifPattern.data d = encodeFixed ':' ':' ' ' ':' ':' d := rfl

theorem strftimeChars_renamePattern (d : PyDateTime) :
    strftimeChars renamePattern.data d = encodeFixed '-' '-' ' ' '.' '.' d := rfl

example : strftime exifPattern ⟨2015, 2, 7, 12, 10, 0⟩ = "2015:02:07 12:10:00" := by
  decide

example : strptimeExif "2015:02:07 12:10:00" = some ⟨2015, 2, 7, 12, 10, 0⟩ := by
  decide

example : strftime renamePattern ⟨2020, 1, 1, 10, 0, 0⟩ = "2020-01-01 10.00.00" := by
  decide

/-! ## POSIX path helpers (`os.path`) -/

/-- `os.path.basename`: the part after the last `/` (the whole string
when there is no `/`). -/
def basenameChars (l : List Char) : List Char :=
  (l.reverse.takeWhile (· ≠ '/')).reverse

/-- `os.path.basename` on strings. -/
def basename (s : String) : String := ⟨basenameChars s.data⟩

/-- `os.path.dirname`: the part up to the last `/`, with trailing
slashes stripped unless it consists only of slashes. -/
def dirnameChars (l : List Char) : List Char :=
  let head := l.take (l.length - (basenameChars l).length)
  if head.any (· ≠ '/') then (head.reverse.dropWhile (· = '/')).reverse
  else head

/-- `os.path.dirname` on strings. -/
def dirname (s : String) : String := ⟨dirnameChars s.data⟩

/-- `os.path.join` for two components. -/
def joinPath (a b : String) : String :=
  if b.data.head? = some '/' then b
  else if a = "" ∨ a.data.getLast? = some '/' then a ++ b
  else a ++ "/" ++ b

/-- `os.path.splitext`: split off the extension at the last dot of the
base name, unless every character before that dot (within the base
name) is itself a dot. -/
def splitext (p : String) : String × String :=
  let b := basenameChars p.data
  let ext := (b.reverse.takeWhile (· ≠ '.')).reverse
  if ext.length = b.length then (p, "")
  else
    let stem := b.take (b.length - ext.length - 1)
    if stem.any (· ≠ '.') then
      (⟨p.data.take (p.data.length - ext.length - 1)⟩, ⟨'.' :: ext⟩)
    else (p, "")

example : basename "/pics/a.jpg" = "a.jpg" := by decide
example : dirname "/pics/a.jpg" = "/pics" := by decide
example : dirname "/a.jpg" = "/" := by decide
example : dirname "a.jpg" = "" := by decide
example : joinPath "/pics" "b.jpg" = "/pics/b.jpg" := by decide
example : splitext "2020-01-01 10.00.00.jpg" = ("2020-01-01 10.00.00", ".jpg") := by
  decide
example : splitext ".bashrc" = (".bashrc", "") := by decide
example : splitext "a" = ("a", "") := by decide

/-! ## Decimal rendering of the collision counter (`"%s" % n`) -/

/-- Digit accumulation loop of the decimal rendering; `fuel` is a
structural-termination bound, always called with enough of it. -/
def natDigitsCore : Nat → Nat → List Char → List Char
  | 0, _, acc => acc
  | fuel + 1, n, acc =>
    if n < 10 then Nat.digitChar n :: acc
    else natDigitsCore fuel (n / 10) (Nat.digitChar (n % 10) :: acc)

/-- The decimal digit characters of `n`, most significant first
(Python `"%s" % n` for a nonnegative integer). -/
def natDigits (n : Nat) : List Char := natDigitsCore (n + 1) n []

/-- Decimal rendering as a string. -/
def natDecimal (n : Nat) : String := ⟨natDigits n⟩

/-- Reading the decimal digits back. -/
def readNatDigits (l : List Char) : Nat :=
  l.foldl (fun acc c => acc * 10 + (c.toNat - 48)) 0

theorem digitChar_toNat : ∀ n < 10, (Nat.digitChar n).toNat = 48 + n := by
  decide

theorem natDigitsCore_append :
    ∀ fuel n acc, n < fuel →
      natDigitsCore fuel n acc = natDigitsCore fuel n [] ++ acc := by
  intro fuel
  induction fuel with
  | zero => omega
  | succ fuel ih =>
    intro n acc h
    by_cases h10 : n < 10
    · simp [natDigitsCore, h10]
    · rw [natDigitsCore, natDigitsCore, if_neg h10, if_neg h10,
        ih (n / 10) _ (by omega), ih (n / 10) [Nat.digitChar (n % 10)] (by omega)]
      simp

theorem readNatDigits_core :
    ∀ fuel n, n < fuel → readNatDigits (natDigitsCore fuel n []) = n := by
  intro fuel
  induction fuel with
  | zero => omega
  | succ fuel ih =>
    intro n h
    by_cases h10 : n < 10
    · simp only [natDigitsCore, if_pos h10, readNatDigits, List.foldl_cons,
        List.foldl_nil, digitChar_toNat n h10]
      omega
    · rw [natDigitsCore, if_neg h10,
        natDigitsCore_append fuel (n / 10) _ (by omega)]
      simp only [readNatDigits, List.foldl_append, List.foldl_cons,
        List.foldl_nil] at ih ⊢
      rw [ih (n / 10) (by omega), digitChar_toNat (n % 10) (by omega)]
      omega

theorem readNatDigits_natDigits (n : Nat) : readNatDigits (natDigits n) = n :=
  readNatDigits_core (n + 1) n (by omega)

theorem natDigits_inj {m n : Nat} (h : natDigits m = natDigits n) : m = n := by
  rw [← readNatDigits_natDigits m, ← readNatDigits_natDigits n, h]

example : natDecimal 0 = "0" := by decide
example : natDecimal 42 = "42" := by decide
example : natDecimal 120 = "120" := by decide

/-! ## Filesystem model and the `File` class -/

/-- The `os.rename` errors distinguished by the model. -/
inductive OSError where
  | fileExists
  | permissionDenied
deriving DecidableEq, Repr

/-- The relevant filesystem state: the existing file paths, plus the
paths on which a rename is denied (modelling genuine I/O failures such
as permission errors). -/
structure FS where
  files : List String
  denied : List String
deriving DecidableEq, Repr

/-- Model of `os.rename`: a denied path raises a permission error; a
rename whose destination equals its source succeeds as a no-op (POSIX
mandates it, Windows permits same-file renames); a distinct destination
that already exists raises `FileExistsError` (the condition the code's
handler targets; on POSIX it would instead be silently replaced);
otherwise the file moves. -/
def osRename (fs : FS) (src dst : String) : Except OSError FS :=
  if src ∈ fs.denied ∨ dst ∈ fs.denied then .error .permissionDenied
  else if dst = src then .ok fs
  else if dst ∈ fs.files then .error .fileExists
  else .ok { fs with files := dst :: fs.files.erase src }

/-- The path attributes of the Python `File` class. -/
structure File where
  path : String
  name : String
  dir : String
deriving DecidableEq, Repr

/-- `File.__init__`: sets `path`, `name` and `dir` from the path. -/
def File.ofPath (path : String) : File :=
  { path := path, name := basename path, dir := dirname path }

/-- `File.set_path`: modifies all the path properties. -/
def File.set_path (_f : File) (new_path : String) : File :=
  { path := new_path, name := basename new_path, dir := dirname new_path }

/-- `File.has_sibling`: checks if this `File` has `file` at the same
path (`os.path.exists(os.path.join(self.dir, file))`). -/
def File.has_sibling (f : File) (files : List String) (file : String) : Bool :=
  decide (joinPath f.dir file ∈ files)

/-- One candidate collision name: `"%s (%s)%s" % (name, k, ext)`. -/
def altCandidate (name : String) (k : Nat) (ext : String) : String :=
  name ++ " (" ++ natDecimal k ++ ")" ++ ext

/-- The search loop of `File.get_alternate_name`, starting at counter
`k`; `fuel` is a structural-termination bound for the Python
`while True`, always called with enough of it
(`get_alternate_name_total`). -/
def altNameFrom (f : File) (files : List String) (name ext : String) :
    Nat → Nat → Option String
  | _, 0 => none
  | k, fuel + 1 =>
    let new_name := altCandidate name k ext
    if f.has_sibling files new_name then altNameFrom f files name ext (k + 1) fuel
    else some new_name

/-- `File.get_alternate_name`: the first counter-suffixed variant of
`file`, counting from 1, that does not exist at this file's
directory. -/
def File.get_alternate_name (f : File) (files : List String) (file : String) :
    Option String :=
  let ne := splitext file
  altNameFrom f files ne.1 ne.2 1 (files.length + 1)

deriving instance DecidableEq for Except

/-- Outcome of `File.rename`: the object's state after the call and the
notice printed by the `finally` block (both take effect on every
control path, even when an error propagates), together with the
filesystem result. -/
structure RenameOutcome where
  file : File
  notice : String × String
  result : Except OSError FS
deriving DecidableEq, Repr

/-- `File.rename`: append the current extension, attempt the rename,
and fall back to `get_alternate_name` on `FileExistsError`.  The
`finally` block prints the `(old name, new name)` notice and assigns
`self.path = new_path` on every control path — and only `path`: `name`
and `dir` are not touched. -/
def File.rename (f : File) (fs : FS) (new_name : String) : RenameOutcome :=
  let extension := (splitext f.name).2
  let n1 := new_name ++ extension
  let p1 := joinPath f.dir n1
  match osRename fs f.path p1 with
  | .ok fs1 => ⟨{ f with path := p1 }, (f.name, n1), .ok fs1⟩
  | .error .fileExists =>
    match f.get_alternate_name fs.files n1 with
    | some n2 =>
      let p2 := joinPath f.dir n2
      match osRename fs f.path p2 with
      | .ok fs2 => ⟨{ f with path := p2 }, (f.name, n2), .ok fs2⟩
      | .error e => ⟨{ f with path := p2 }, (f.name, n2), .error e⟩
    | none =>
      -- The search always succeeds (`get_alternate_name_total`); this
      -- branch only closes the model's fuel artifact.
      ⟨{ f with path := p1 }, (f.name, n1), .error .fileExists⟩
  | .error e => ⟨{ f with path := p1 }, (f.name, n1), .error e⟩

example : (File.ofPath "/pics/a.jpg").name = "a.jpg" := by decide
example : (File.ofPath "/pics/a.jpg").dir = "/pics" := by decide
example :
    (File.ofPath "/pics/x.jpg").get_alternate_name
      ["/pics/x.jpg", "/pics/x (1).jpg"] "x.jpg" = some "x (2).jpg" := by decide
example :
    ((File.ofPath "/pics/a.jpg").rename ⟨["/pics/a.jpg"], []⟩ "b").result =
      .ok ⟨["/pics/b.jpg"], []⟩ := by decide
example :
    ((File.ofPath "/pics/a.jpg").rename
      ⟨["/pics/a.jpg", "/pics/b.jpg"], []⟩ "b").file.path = "/pics/b (1).jpg" := by
  decide

/-! ## EXIF data and the `Photo` class -/

/-- The `"Exif"` sub-dictionary of what `piexif.load` returns: tag id →
decoded tag value (byte values are modelled after UTF-8 decoding). -/
structure ExifData where
  exifIFD : List (Nat × String)
deriving DecidableEq, Repr

/-- The `DateTimeOriginal` class: wraps a parsed EXIF dictionary. -/
structure DateTimeOriginal where
  exif : ExifData
deriving DecidableEq, Repr

/-- `self.tag`: ID for the DateTimeOriginal tag in the EXIF data. -/
def DateTimeOriginal.tag : Nat := 36867

/-- `DateTimeOriginal.get_date`: if the tag is present in the `"Exif"`
sub-dictionary, decode and `strptime` it with the fixed camera format
(`strptime` raises `ValueError` on a malformed value); an absent tag
falls off the end of the method, returning `None`. -/
def DateTimeOriginal.get_date (d : DateTimeOriginal) :
    Except String (Option PyDateTime) :=
  match d.exif.exifIFD.lookup DateTimeOriginal.tag with
  | some raw =>
    match strptimeExif raw with
    | some dt => .ok (some dt)
    | none => .error "ValueError"
  | none => .ok none

/-- Per-file facts supplied by the external collaborators: the sniffed
image type (`imghdr.what`), the parsed EXIF dictionary (`piexif.load`),
and the filesystem timestamps read by `get_date_created` /
`get_date_modified` (already converted by `datetime.fromtimestamp`). -/
structure PhotoEnv where
  fileType : Option String
  exif : ExifData
  ctime : PyDateTime
  mtime : PyDateTime
deriving DecidableEq, Repr

/-- The `Photo` class: a `File` plus the rename date format. -/
structure Photo extends File where
  date_format : String
deriving DecidableEq, Repr

/-- `Photo.__init__`. -/
def Photo.ofPath (path date_format : String) : Photo :=
  { File.ofPath path with date_format := date_format }

/-- `Photo.has_exif_data`: JPEG and TIFF are the only file types that
piexif supports. -/
def Photo.has_exif_data (_p : Photo) (env : PhotoEnv) : Bool :=
  decide (env.fileType = some "jpeg") || decide (env.fileType = some "tiff")

/-- `Photo.get_exif_data`: the photo's EXIF data, if it exists. -/
def Photo.get_exif_data (p : Photo) (env : PhotoEnv) : Option ExifData :=
  if p.has_exif_data env then some env.exif else none

/-- `Photo.get_date_taken`. -/
def Photo.get_date_taken (p : Photo) (env : PhotoEnv) :
    Except String (Option PyDateTime) :=
  if p.has_exif_data env then
    match p.get_exif_data env with
    | some exif => DateTimeOriginal.get_date ⟨exif⟩
    | none => .ok none
    -- the `none` case is not reached: `get_exif_data` returns the
    -- dictionary whenever `has_exif_data` holds
  else .ok none

/-- `Photo.get_date_created`. -/
def Photo.get_date_created (_p : Photo) (env : PhotoEnv) : PyDateTime := env.ctime

/-- `Photo.get_date_modified`. -/
def Photo.get_date_modified (_p : Photo) (env : PhotoEnv) : PyDateTime := env.mtime

/-- `Photo.get_earliest_date`: the date-resolution policy, returning
the chosen date formatted with `self.date_format`.  The Python
truthiness test `if date_taken and date_taken < date_created` is the
`some` case of the match. -/
def Photo.get_earliest_date (p : Photo) (env : PhotoEnv) : Except String String :=
  match p.get_date_taken env with
  | .error e => .error e
  | .ok date_taken =>
  let date_modified := p.get_date_modified env
  let date_created := p.get_date_created env
  match date_taken with
  | some dt =>
    if dt.lt date_created then .ok (strftime p.date_format dt)
    else if date_created.lt date_modified then .ok (strftime p.date_format date_created)
    else .ok (strftime p.date_format date_modified)
  | none =>
    if date_created.lt date_modified then .ok (strftime p.date_format date_created)
    else .ok (strftime p.date_format date_modified)

/-- The resolution policy exactly as the specification words it
(§4.1 step 3), for comparison with `Photo.get_earliest_date`. -/
def specResolvedDate (date_taken : Option PyDateTime)
    (created modified : PyDateTime) : PyDateTime :=
  match date_taken with
  | some dt =>
    if dt.lt created then dt
    else if created.lt modified then created
    else modified
  | none => if created.lt modified then created else modified

example :
    (Photo.ofPath "/pics/IMG_001.jpg" renamePattern).get_earliest_date
      ⟨some "jpeg", ⟨[(36867, "2015:02:07 12:10:00")]⟩,
        ⟨2020, 3, 1, 9, 0, 0⟩, ⟨2020, 3, 1, 9, 5, 0⟩⟩ =
      .ok "2015-02-07 12.10.00" := by decide

example :
    (Photo.ofPath "/pics/photo.png" renamePattern).get_earliest_date
      ⟨some "png", ⟨[]⟩, ⟨2019, 5, 1, 8, 0, 0⟩, ⟨2019, 6, 1, 8, 0, 0⟩⟩ =
      .ok "2019-05-01 08.00.00" := by decide

/-! ## General lemmas about the rename engine -/

theorem altCandidate_data (name : String) (k : Nat) (ext : String) :
    (altCandidate name k ext).data =
      name.data ++ ' ' :: '(' :: (natDigits k ++ (')' :: ext.data)) := by
  have h1 : (" (" : String).data = [' ', '('] := rfl
  have h2 : (")" : String).data = [')'] := rfl
  simp [altCandidate, natDecimal, h1, h2]

theorem altCandidate_head (name : String) (k k' : Nat) (ext : String) :
    (altCandidate name k ext).data.head? = (altCandidate name k' ext).data.head? := by
  rw [altCandidate_data, altCandidate_data]
  cases name.data <;> simp

theorem altCandidate_inj_data (name ext : String) {k k' : Nat}
    (h : (altCandidate name k ext).data = (altCandidate name k' ext).data) :
    k = k' := by
  rw [altCandidate_data, altCandidate_data] at h
  have h1 := List.append_inj_right h rfl
  injection h1 with _ h1
  injection h1 with _ h1
  exact natDigits_inj (List.append_inj_left' h1 rfl)

theorem joinPath_altCandidate_inj (dir name ext : String) {k k' : Nat}
    (h : joinPath dir (altCandidate name k ext) =
      joinPath dir (altCandidate name k' ext)) :
    k = k' := by
  apply altCandidate_inj_data name ext
  unfold joinPath at h
  by_cases h1 : (altCandidate name k ext).data.head? = some '/'
  · have h1' : (altCandidate name k' ext).data.head? = some '/' :=
      (altCandidate_head name k' k ext).trans h1
    rw [if_pos h1, if_pos h1'] at h
    exact congrArg String.data h
  · have h1' : ¬ (altCandidate name k' ext).data.head? = some '/' := by
      rw [altCandidate_head name k' k ext]; exact h1
    rw [if_neg h1, if_neg h1'] at h
    by_cases h2 : dir = "" ∨ dir.data.getLast? = some '/'
    · rw [if_pos h2, if_pos h2] at h
      have hd := congrArg String.data h
      simp only [String.data_append] at hd
      exact List.append_inj_right hd rfl
    · rw [if_neg h2, if_neg h2] at h
      have hd := congrArg String.data h
      simp only [String.data_append] at hd
      exact List.append_inj_right hd rfl

theorem exists_unused_counter (f : File) (files : List String) (name ext : String) :
    ∃ j, 1 ≤ j ∧ j ≤ files.length + 1 ∧
      f.has_sibling files (altCandidate name j ext) = false := by
  by_contra hc
  push_neg at hc
  have hmem : ∀ j ∈ Finset.Icc 1 (files.length + 1),
      joinPath f.dir (altCandidate name j ext) ∈ files.toFinset := by
    intro j hj
    rw [Finset.mem_Icc] at hj
    have hb : f.has_sibling files (altCandidate name j ext) = true := by
      cases hx : f.has_sibling files (altCandidate name j ext)
      · exact absurd hx (hc j hj.1 hj.2)
      · rfl
    rw [List.mem_toFinset]
    exact of_decide_eq_true hb
  have hinj : Set.InjOn (fun j => joinPath f.dir (altCandidate name j ext))
      (Finset.Icc 1 (files.length + 1)) := by
    intro a _ b _ hab
    exact joinPath_altCandidate_inj f.dir name ext hab
  have hcard := Finset.card_le_card (Finset.image_subset_iff.mpr hmem)
  rw [Finset.card_image_of_injOn hinj, Nat.card_Icc] at hcard
  have hfin : files.toFinset.card ≤ files.length := List.toFinset_card_le files
  omega

theorem altNameFrom_finds (f : File) (files : List String) (name ext : String) :
    ∀ fuel k, (∃ j, k ≤ j ∧ j < k + fuel ∧
        f.has_sibling files (altCandidate name j ext) = false) →
      ∃ j, altNameFrom f files name ext k fuel = some (altCandidate name j ext) ∧
        k ≤ j ∧ f.has_sibling files (altCandidate name j ext) = false ∧
        ∀ i, k ≤ i → i < j → f.has_sibling files (altCandidate name i ext) = true := by
  intro fuel
  induction fuel with
  | zero =>
    intro k h
    obtain ⟨j, hj1, hj2, _⟩ := h
    omega
  | succ fuel ih =>
    intro k h
    obtain ⟨j, hj1, hj2, hj3⟩ := h
    by_cases hk : f.has_sibling files (altCandidate name k ext) = true
    · have hne : j ≠ k := by
        intro he
        rw [← he] at hk
        rw [hj3] at hk
        simp at hk
      obtain ⟨j', hj'1, hj'2, hj'3, hj'4⟩ :=
        ih (k + 1) ⟨j, by omega, by omega, hj3⟩
      refine ⟨j', ?_, by omega, hj'3, ?_⟩
      · rw [altNameFrom]
        simp only [hk, if_true]
        exact hj'1
      · intro i hi1 hi2
        rcases Nat.eq_or_lt_of_le hi1 with he | hlt
        · rw [← he]; exact hk
        · exact hj'4 i (by omega) hi2
    · have hk' : f.has_sibling files (altCandidate name k ext) = false := by
        cases hx : f.has_sibling files (altCandidate name k ext)
        · rfl
        · exact absurd hx hk
      refine ⟨k, ?_, Nat.le_refl k, hk', by omega⟩
      rw [altNameFrom]
      simp [hk']

/-- `get_alternate_name` always succeeds and returns the candidate with
the smallest unused counter, counting from 1. -/
theorem get_alternate_name_least (f : File) (files : List String) (file : String) :
    ∃ k, 1 ≤ k ∧
      f.get_alternate_name files file =
        some (altCandidate (splitext file).1 k (splitext file).2) ∧
      f.has_sibling files (altCandidate (splitext file).1 k (splitext file).2) = false ∧
      ∀ i, 1 ≤ i → i < k →
        f.has_sibling files (altCandidate (splitext file).1 i (splitext file).2) = true := by
  obtain ⟨j, hj1, hj2, hj3⟩ :=
    exists_unused_counter f files (splitext file).1 (splitext file).2
  obtain ⟨k, hk1, hk2, hk3, hk4⟩ :=
    altNameFrom_finds f files (splitext file).1 (splitext file).2
      (files.length + 1) 1 ⟨j, hj1, by omega, hj3⟩
  exact ⟨k, hk2, hk1, hk3, fun i h1 h2 => hk4 i h1 h2⟩

theorem get_alternate_name_not_sibling (f : File) (files : List String)
    (file n : String) (h : f.get_alternate_name files file = some n) :
    f.has_sibling files n = false := by
  obtain ⟨k, _, h2, h3, _⟩ := get_alternate_name_least f files file
  rw [h] at h2
  injection h2 with he
  rw [he]
  exact h3

theorem osRename_ok_iff (fs : FS) (src dst : String) (fs2 : FS) :
    osRename fs src dst = .ok fs2 ↔
      ¬ (src ∈ fs.denied ∨ dst ∈ fs.denied) ∧
      ((dst = src ∧ fs2 = fs) ∨
        (dst ≠ src ∧ dst ∉ fs.files ∧
          fs2 = { fs with files := dst :: fs.files.erase src })) := by
  unfold osRename
  by_cases h1 : src ∈ fs.denied ∨ dst ∈ fs.denied
  · simp [h1]
  · obtain ⟨h1a, h1b⟩ := not_or.mp h1
    by_cases h2 : dst = src
    · simp [h1a, h1b, h2, eq_comm]
    · by_cases h3 : dst ∈ fs.files
      · simp [h1a, h1b, h2, h3]
      · simp [h1a, h1b, h2, h3, eq_comm]

theorem osRename_error_iff (fs : FS) (src dst : String) (e : OSError) :
    osRename fs src dst = .error e ↔
      ((src ∈ fs.denied ∨ dst ∈ fs.denied) ∧ e = .permissionDenied) ∨
      (¬ (src ∈ fs.denied ∨ dst ∈ fs.denied) ∧ dst ≠ src ∧ dst ∈ fs.files ∧
        e = .fileExists) := by
  unfold osRename
  by_cases h1 : src ∈ fs.denied ∨ dst ∈ fs.denied
  · simp [h1, eq_comm]
  · obtain ⟨h1a, h1b⟩ := not_or.mp h1
    by_cases h2 : dst = src
    · simp [h1a, h1b, h2]
    · by_cases h3 : dst ∈ fs.files
      · simp [h1a, h1b, h2, h3, eq_comm]
      · simp [h1a, h1b, h2, h3]

/-! ## General lemmas about the date resolver -/

/-- Whenever `get_date_taken` returns normally, `get_earliest_date`
returns the resolved date of the specification's precedence policy,
formatted with the active pattern. -/
theorem get_earliest_date_spec (p : Photo) (env : PhotoEnv)
    (dto : Option PyDateTime) (h : p.get_date_taken env = .ok dto) :
    p.get_earliest_date env =
      .ok (strftime p.date_format (specResolvedDate dto env.ctime env.mtime)) := by
  unfold Photo.get_earliest_date
  rw [h]
  cases dto with
  | none =>
    cases hcm : PyDateTime.lt env.ctime env.mtime <;>
      simp [specResolvedDate, Photo.get_date_created, Photo.get_date_modified, hcm]
  | some dt =>
    cases hdc : PyDateTime.lt dt env.ctime <;>
      cases hcm : PyDateTime.lt env.ctime env.mtime <;>
        simp [specResolvedDate, Photo.get_date_created, Photo.get_date_modified,
          hdc, hcm]

/-- Missing metadata always yields a normal `None` result. -/
theorem get_date_taken_absent (p : Photo) (env : PhotoEnv)
    (h : p.has_exif_data env = false ∨
      env.exif.exifIFD.lookup DateTimeOriginal.tag = none) :
    p.get_date_taken env = .ok none := by
  unfold Photo.get_date_taken
  rcases h with h | h
  · simp [h]
  · by_cases he : p.has_exif_data env
    · simp only [he, if_true]
      unfold Photo.get_exif_data
      simp [he, DateTimeOriginal.get_date, h]
    · simp [he]

/-! ## Claim theorems -/

/-- C1: For every file, the Date Resolver picks its date by this exact
precedence: if a "date taken" (EXIF DateTimeOriginal) is available and
strictly earlier than the file's creation time, the resolved date is
the date taken; otherwise, if the creation time is strictly earlier
than the modification time, the resolved date is the creation time;
otherwise it is the modification time; the chosen date is returned
formatted with the active DateFormat pattern. -/
theorem C1_resolver_precedence (p : Photo) (env : PhotoEnv)
    (dto : Option PyDateTime) (h : p.get_date_taken env = .ok dto) :
    p.get_earliest_date env =
      .ok (strftime p.date_format (specResolvedDate dto env.ctime env.mtime)) :=
  get_earliest_date_spec p env dto h

theorem C1_witness :
    (Photo.ofPath "/pics/IMG_001.jpg" renamePattern).get_date_taken
        ⟨some "jpeg", ⟨[(36867, "2015:02:07 12:10:00")]⟩,
          ⟨2020, 3, 1, 9, 0, 0⟩, ⟨2020, 3, 1, 9, 5, 0⟩⟩ =
      .ok (some ⟨2015, 2, 7, 12, 10, 0⟩) ∧
    (Photo.ofPath "/pics/IMG_001.jpg" renamePattern).get_earliest_date
        ⟨some "jpeg", ⟨[(36867, "2015:02:07 12:10:00")]⟩,
          ⟨2020, 3, 1, 9, 0, 0⟩, ⟨2020, 3, 1, 9, 5, 0⟩⟩ =
      .ok (strftime renamePattern
        (specResolvedDate (some ⟨2015, 2, 7, 12, 10, 0⟩)
          ⟨2020, 3, 1, 9, 0, 0⟩ ⟨2020, 3, 1, 9, 5, 0⟩)) :=
  ⟨by decide,
    C1_resolver_precedence (Photo.ofPath "/pics/IMG_001.jpg" renamePattern)
      ⟨some "jpeg", ⟨[(36867, "2015:02:07 12:10:00")]⟩,
        ⟨2020, 3, 1, 9, 0, 0⟩, ⟨2020, 3, 1, 9, 5, 0⟩⟩
      (some ⟨2015, 2, 7, 12, 10, 0⟩) (by decide)⟩

/-- C5: For every file whose EXIF metadata is missing — whether the
file type does not support metadata, or the EXIF dictionary exists but
lacks tag 36867 (DateTimeOriginal) — the Date Resolver raises no
exception: "date taken" is reported as absent and resolution falls
through to the filesystem timestamps. -/
theorem C5_missing_metadata_is_not_an_error (p : Photo) (env : PhotoEnv)
    (h : p.has_exif_data env = false ∨
      env.exif.exifIFD.lookup DateTimeOriginal.tag = none) :
    p.get_date_taken env = .ok none ∧
    p.get_earliest_date env =
      .ok (strftime p.date_format
        (if PyDateTime.lt env.ctime env.mtime then env.ctime else env.mtime)) := by
  have h1 := get_date_taken_absent p env h
  exact ⟨h1, get_earliest_date_spec p env none h1⟩

theorem C5_witness :
    ((Photo.ofPath "/pics/photo.png" renamePattern).has_exif_data
        ⟨some "png", ⟨[]⟩, ⟨2019, 5, 1, 8, 0, 0⟩, ⟨2019, 6, 1, 8, 0, 0⟩⟩ = false ∨
      (ExifData.exifIFD ⟨[]⟩).lookup DateTimeOriginal.tag = none) ∧
    ((Photo.ofPath "/pics/photo.png" renamePattern).get_date_taken
        ⟨some "png", ⟨[]⟩, ⟨2019, 5, 1, 8, 0, 0⟩, ⟨2019, 6, 1, 8, 0, 0⟩⟩ = .ok none ∧
      (Photo.ofPath "/pics/photo.png" renamePattern).get_earliest_date
        ⟨some "png", ⟨[]⟩, ⟨2019, 5, 1, 8, 0, 0⟩, ⟨2019, 6, 1, 8, 0, 0⟩⟩ =
        .ok (strftime renamePattern
          (if PyDateTime.lt ⟨2019, 5, 1, 8, 0, 0⟩ ⟨2019, 6, 1, 8, 0, 0⟩ then
            (⟨2019, 5, 1, 8, 0, 0⟩ : PyDateTime) else ⟨2019, 6, 1, 8, 0, 0⟩))) :=
  ⟨Or.inl (by decide),
    C5_missing_metadata_is_not_an_error
      (Photo.ofPath "/pics/photo.png" renamePattern)
      ⟨some "png", ⟨[]⟩, ⟨2019, 5, 1, 8, 0, 0⟩, ⟨2019, 6, 1, 8, 0, 0⟩⟩
      (Or.inl (by decide))⟩

/-- C9: For every datetime value and every lossless format pattern P
used by the system (the EXIF source format `"%Y:%m:%d %H:%M:%S"` and
the default rename pattern `"%Y-%m-%d %H.%M.%S"`), formatting the
datetime with P and then parsing the result with the inverse of P
recovers the original datetime to the pattern's precision (seconds). -/
theorem C9_lossless_pattern_roundtrip (d : PyDateTime) (h : d.Valid) :
    strptimeExif (strftime exifPattern d) = some d ∧
    strptimeRename (strftime renamePattern d) = some d := by
  refine ⟨?_, ?_⟩
  · show parseFixedChars ':' ':' ' ' ':' ':' (strftimeChars exifPattern.data d) = some d
    rw [strftimeChars_exifPattern]
    exact parseFixedChars_encodeFixed ':' ':' ' ' ':' ':' d h
  · show parseFixedChars '-' '-' ' ' '.' '.' (strftimeChars renamePattern.data d) = some d
    rw [strftimeChars_renamePattern]
    exact parseFixedChars_encodeFixed '-' '-' ' ' '.' '.' d h

theorem C9_witness :
    PyDateTime.Valid ⟨2015, 2, 7, 12, 10, 0⟩ ∧
    (strptimeExif (strftime exifPattern ⟨2015, 2, 7, 12, 10, 0⟩) =
        some ⟨2015, 2, 7, 12, 10, 0⟩ ∧
      strptimeRename (strftime renamePattern ⟨2015, 2, 7, 12, 10, 0⟩) =
        some ⟨2015, 2, 7, 12, 10, 0⟩) :=
  ⟨by decide, C9_lossless_pattern_roundtrip ⟨2015, 2, 7, 12, 10, 0⟩ (by decide)⟩

/-- C10: For every path p, constructing a File with path p, or calling
set_path(p) on an existing File, establishes the consistency invariant
that the object's name field equals the base name component of p and
its dir field equals the directory component of p. -/
theorem C10_path_field_consistency (p : String) (f : File) :
    ((File.ofPath p).name = basename p ∧ (File.ofPath p).dir = dirname p) ∧
    ((f.set_path p).name = basename p ∧ (f.set_path p).dir = dirname p) :=
  ⟨⟨rfl, rfl⟩, ⟨rfl, rfl⟩⟩

/-- C3 (code bug): the claim says a fatal (non-"target exists") rename
failure propagates with the success-only effects not occurring.  The
error does propagate, but `File.rename` runs its epilogue in a
`finally` block, so the old-to-new notice is still emitted and
`self.path` is still rewritten to the path the failed `os.rename` was
given.  Evaluated at a denied rename of `/pics/a.jpg` to base name
`b`. -/
theorem C3_finally_epilogue_runs_on_fatal_error :
    ((File.ofPath "/pics/a.jpg").rename
        ⟨["/pics/a.jpg"], ["/pics/a.jpg"]⟩ "b").result =
      .error OSError.permissionDenied ∧
    ((File.ofPath "/pics/a.jpg").rename
        ⟨["/pics/a.jpg"], ["/pics/a.jpg"]⟩ "b").file.path = "/pics/b.jpg" ∧
    ((File.ofPath "/pics/a.jpg").rename
        ⟨["/pics/a.jpg"], ["/pics/a.jpg"]⟩ "b").notice = ("a.jpg", "b.jpg") := by
  decide

/-- C4 (code bug): after a successful rename only `path` is assigned;
`File.rename` never calls `set_path`, so `name` (and `dir`) keep their
pre-rename values, contradicting `set_path`'s own docstring ("this
needs to be called every time the file's path is changed").  Evaluated
at a successful rename of `/pics/a.jpg` to base name `b`: the `name`
field still reads `a.jpg` while the path's base name is `b.jpg`. -/
theorem C4_derived_fields_stale_after_success :
    ((File.ofPath "/pics/a.jpg").rename ⟨["/pics/a.jpg"], []⟩ "b").result =
      .ok ⟨["/pics/b.jpg"], []⟩ ∧
    ((File.ofPath "/pics/a.jpg").rename ⟨["/pics/a.jpg"], []⟩ "b").file.path =
      "/pics/b.jpg" ∧
    ((File.ofPath "/pics/a.jpg").rename ⟨["/pics/a.jpg"], []⟩ "b").file.name =
      "a.jpg" ∧
    basename ((File.ofPath "/pics/a.jpg").rename
      ⟨["/pics/a.jpg"], []⟩ "b").file.path = "b.jpg" := by
  decide

/-- C6: When the target base name collides, the disambiguated name is
formed by appending the smallest counter suffix ≥ 1 that is unused in
the directory, in the format `<base> (k)<ext>`: given one existing
file with the base name, the colliding file becomes `<base> (1)<ext>`;
with that also taken, the next becomes `<base> (2)<ext>`, and so on.
(The proviso "provided some counter value is unused" always holds: the
search always succeeds, returning the least unused counter.) -/
theorem C6_smallest_unused_counter (f : File) (files : List String) (file : String) :
    ∃ k, 1 ≤ k ∧
      f.get_alternate_name files file =
        some (altCandidate (splitext file).1 k (splitext file).2) ∧
      f.has_sibling files (altCandidate (splitext file).1 k (splitext file).2)
        = false ∧
      ∀ i, 1 ≤ i → i < k →
        f.has_sibling files (altCandidate (splitext file).1 i (splitext file).2)
          = true :=
  get_alternate_name_least f files file

/-- C2 (counterexample): renaming `/pics/2020.jpg` to its own base
name succeeds — `os.rename` on a same-path rename is a no-op — and the
final path coincides with a path that already existed in the directory
before the rename (the file's own), so the claim's "never collides
with a pre-existing path" statement fails at this input. -/
theorem C2_counterexample :
    ((File.ofPath "/pics/2020.jpg").rename ⟨["/pics/2020.jpg"], []⟩ "2020").result =
      .ok ⟨["/pics/2020.jpg"], []⟩ ∧
    ((File.ofPath "/pics/2020.jpg").rename ⟨["/pics/2020.jpg"], []⟩ "2020").file.path ∈
      FS.files ⟨["/pics/2020.jpg"], []⟩ := by decide

/-- C2 (as amended): for every renamed file, the final path coincides
with no path that existed in the directory before the rename other
than the file's own previous path (the self-rename no-op case), so no
distinct pre-existing file is ever overwritten; and when a collision
with a distinct existing file is detected, the disambiguated name is
produced deterministically as the candidate with the least unused
counter — a function of the directory contents alone. -/
theorem C2_no_overwrite_except_self (f : File) (fs : FS) (new_name : String)
    (fs2 : FS) (h : (f.rename fs new_name).result = .ok fs2) :
    ((f.rename fs new_name).file.path ∈ fs.files →
      (f.rename fs new_name).file.path = f.path) ∧
    (joinPath f.dir (new_name ++ (splitext f.name).2) ≠ f.path →
      joinPath f.dir (new_name ++ (splitext f.name).2) ∈ fs.files →
      f.path ∉ fs.denied →
      joinPath f.dir (new_name ++ (splitext f.name).2) ∉ fs.denied →
      ∃ k, 1 ≤ k ∧
        (f.rename fs new_name).file.path =
          joinPath f.dir
            (altCandidate (splitext (new_name ++ (splitext f.name).2)).1 k
              (splitext (new_name ++ (splitext f.name).2)).2) ∧
        f.has_sibling fs.files
          (altCandidate (splitext (new_name ++ (splitext f.name).2)).1 k
            (splitext (new_name ++ (splitext f.name).2)).2) = false ∧
        ∀ i, 1 ≤ i → i < k →
          f.has_sibling fs.files
            (altCandidate (splitext (new_name ++ (splitext f.name).2)).1 i
              (splitext (new_name ++ (splitext f.name).2)).2) = true) := by
  constructor
  · simp only [File.rename] at h ⊢
    cases hos : osRename fs f.path (joinPath f.dir (new_name ++ (splitext f.name).2)) with
    | ok fs1 =>
      simp only [hos] at h ⊢
      obtain ⟨-, hcase⟩ := (osRename_ok_iff fs f.path _ fs1).mp hos
      rcases hcase with ⟨heq, -⟩ | ⟨-, hnm, -⟩
      · intro _
        exact heq
      · intro hmem
        exact absurd hmem hnm
    | error e =>
      cases e with
      | fileExists =>
        cases halt : f.get_alternate_name fs.files (new_name ++ (splitext f.name).2) with
        | none =>
          simp only [hos, halt] at h
          exact Except.noConfusion h
        | some n2 =>
          simp only [hos, halt] at h ⊢
          have hns := get_alternate_name_not_sibling f fs.files _ n2 halt
          unfold File.has_sibling at hns
          have hnm := of_decide_eq_false hns
          cases hos2 : osRename fs f.path (joinPath f.dir n2) with
          | ok fs3 =>
            simp only [hos2] at h ⊢
            intro hmem
            exact absurd hmem hnm
          | error e2 =>
            simp only [hos2] at h
            exact Except.noConfusion h
      | permissionDenied =>
        simp only [hos] at h
        exact Except.noConfusion h
  · intro hne hmem hd1 hd2
    have hos : osRename fs f.path (joinPath f.dir (new_name ++ (splitext f.name).2)) =
        .error .fileExists := by
      unfold osRename
      rw [if_neg (by simp [hd1, hd2]), if_neg hne, if_pos hmem]
    obtain ⟨k, hk1, halt, hsib, hleast⟩ :=
      get_alternate_name_least f fs.files (new_name ++ (splitext f.name).2)
    refine ⟨k, hk1, ?_, hsib, hleast⟩
    simp only [File.rename, hos, halt]
    cases hos2 : osRename fs f.path
        (joinPath f.dir
          (altCandidate (splitext (new_name ++ (splitext f.name).2)).1 k
            (splitext (new_name ++ (splitext f.name).2)).2)) with
    | ok fs3 => simp only [hos2]
    | error e2 => simp only [hos2]

theorem C2_witness :
    ((File.ofPath "/pics/a.jpg").rename
        ⟨["/pics/a.jpg", "/pics/b.jpg"], []⟩ "b").result =
      .ok ⟨["/pics/b (1).jpg", "/pics/b.jpg"], []⟩ ∧
    ((((File.ofPath "/pics/a.jpg").rename
          ⟨["/pics/a.jpg", "/pics/b.jpg"], []⟩ "b").file.path ∈
        FS.files ⟨["/pics/a.jpg", "/pics/b.jpg"], []⟩ →
      ((File.ofPath "/pics/a.jpg").rename
          ⟨["/pics/a.jpg", "/pics/b.jpg"], []⟩ "b").file.path =
        (File.ofPath "/pics/a.jpg").path) ∧
    (joinPath (File.ofPath "/pics/a.jpg").dir
        ("b" ++ (splitext (File.ofPath "/pics/a.jpg").name).2) ≠
        (File.ofPath "/pics/a.jpg").path →
      joinPath (File.ofPath "/pics/a.jpg").dir
        ("b" ++ (splitext (File.ofPath "/pics/a.jpg").name).2) ∈
        FS.files ⟨["/pics/a.jpg", "/pics/b.jpg"], []⟩ →
      (File.ofPath "/pics/a.jpg").path ∉
        FS.denied ⟨["/pics/a.jpg", "/pics/b.jpg"], []⟩ →
      joinPath (File.ofPath "/pics/a.jpg").dir
        ("b" ++ (splitext (File.ofPath "/pics/a.jpg").name).2) ∉
        FS.denied ⟨["/pics/a.jpg", "/pics/b.jpg"], []⟩ →
      ∃ k, 1 ≤ k ∧
        ((File.ofPath "/pics/a.jpg").rename
            ⟨["/pics/a.jpg", "/pics/b.jpg"], []⟩ "b").file.path =
          joinPath (File.ofPath "/pics/a.jpg").dir
            (altCandidate
              (splitext ("b" ++ (splitext (File.ofPath "/pics/a.jpg").name).2)).1 k
              (splitext ("b" ++ (splitext (File.ofPath "/pics/a.jpg").name).2)).2) ∧
        (File.ofPath "/pics/a.jpg").has_sibling
          (FS.files ⟨["/pics/a.jpg", "/pics/b.jpg"], []⟩)
          (altCandidate
            (splitext ("b" ++ (splitext (File.ofPath "/pics/a.jpg").name).2)).1 k
            (splitext ("b" ++ (splitext (File.ofPath "/pics/a.jpg").name).2)).2)
          = false ∧
        ∀ i, 1 ≤ i → i < k →
          (File.ofPath "/pics/a.jpg").has_sibling
            (FS.files ⟨["/pics/a.jpg", "/pics/b.jpg"], []⟩)
            (altCandidate
              (splitext ("b" ++ (splitext (File.ofPath "/pics/a.jpg").name).2)).1 i
              (splitext ("b" ++ (splitext (File.ofPath "/pics/a.jpg").name).2)).2)
            = true)) :=
  ⟨by decide,
    C2_no_overwrite_except_self (File.ofPath "/pics/a.jpg")
      ⟨["/pics/a.jpg", "/pics/b.jpg"], []⟩ "b"
      ⟨["/pics/b (1).jpg", "/pics/b.jpg"], []⟩ (by decide)⟩

/-- C8: A "target already exists" condition during rename is never
surfaced to the caller as an error: the collision is absorbed by the
internal disambiguation, and any error that does escape `File.rename`
is a genuine I/O failure (`permissionDenied` in the model), never
`fileExists`. -/
theorem C8_collision_never_escapes (f : File) (fs : FS) (new_name : String)
    (e : OSError) (h : (f.rename fs new_name).result = .error e) :
    e = OSError.permissionDenied := by
  simp only [File.rename] at h
  cases hos : osRename fs f.path (joinPath f.dir (new_name ++ (splitext f.name).2)) with
  | ok fs1 =>
    simp only [hos] at h
    exact Except.noConfusion h
  | error e1 =>
    cases e1 with
    | permissionDenied =>
      simp only [hos] at h
      injection h with he
      exact he.symm
    | fileExists =>
      obtain ⟨k, hk1, halt, hsib, -⟩ :=
        get_alternate_name_least f fs.files (new_name ++ (splitext f.name).2)
      simp only [hos, halt] at h
      cases hos2 : osRename fs f.path
          (joinPath f.dir
            (altCandidate (splitext (new_name ++ (splitext f.name).2)).1 k
              (splitext (new_name ++ (splitext f.name).2)).2)) with
      | ok fs3 =>
        simp only [hos2] at h
        exact Except.noConfusion h
      | error e2 =>
        simp only [hos2] at h
        injection h with he
        rcases (osRename_error_iff fs f.path _ e2).mp hos2 with ⟨-, he2⟩ | ⟨-, -, hmem, -⟩
        · rw [← he, he2]
        · unfold File.has_sibling at hsib
          exact absurd hmem (of_decide_eq_false hsib)

theorem C8_witness :
    ((File.ofPath "/pics/a.jpg").rename
        ⟨["/pics/a.jpg"], ["/pics/a.jpg"]⟩ "b").result =
      .error OSError.permissionDenied ∧
    OSError.permissionDenied = OSError.permissionDenied :=
  ⟨by decide,
    C8_collision_never_escapes (File.ofPath "/pics/a.jpg")
      ⟨["/pics/a.jpg"], ["/pics/a.jpg"]⟩ "b" OSError.permissionDenied (by decide)⟩

/-- C7 (counterexample): renaming `/pics/2020.jpg` to its own current
base name `2020` composes a target equal to the current path, and the
engine leaves the name unchanged — the rename succeeds as a no-op and
no counter-suffixed alternate is selected — refuting the claimed
disambiguation on self-rename. -/
theorem C7_counterexample :
    joinPath (File.ofPath "/pics/2020.jpg").dir
        ("2020" ++ (splitext (File.ofPath "/pics/2020.jpg").name).2) =
      (File.ofPath "/pics/2020.jpg").path ∧
    ((File.ofPath "/pics/2020.jpg").rename ⟨["/pics/2020.jpg"], []⟩ "2020").file.path =
      (File.ofPath "/pics/2020.jpg").path ∧
    ((File.ofPath "/pics/2020.jpg").rename ⟨["/pics/2020.jpg"], []⟩ "2020").result =
      .ok ⟨["/pics/2020.jpg"], []⟩ := by decide

/-- C7 (as amended): when the composed target path is identical to the
file's current path, the rename succeeds as a filesystem no-op — the
filesystem is returned unchanged and no counter-suffixed alternate is
selected: the object's path is (re)assigned its current value, and the
notice is still emitted with the unsuffixed target name. -/
theorem C7_self_rename_is_no_op (f : File) (fs : FS) (new_name : String)
    (hdenied : f.path ∉ fs.denied)
    (htarget : joinPath f.dir (new_name ++ (splitext f.name).2) = f.path) :
    (f.rename fs new_name).result = .ok fs ∧
    (f.rename fs new_name).file.path = f.path ∧
    (f.rename fs new_name).notice = (f.name, new_name ++ (splitext f.name).2) := by
  have hos : osRename fs f.path (joinPath f.dir (new_name ++ (splitext f.name).2)) =
      .ok fs := by
    unfold osRename
    rw [htarget, if_neg (by simp [hdenied]), if_pos rfl]
  refine ⟨?_, ?_, ?_⟩
  · simp only [File.rename, hos]
  · simp only [File.rename, hos]
    exact htarget
  · simp only [File.rename, hos]

theorem C7_witness :
    ((File.ofPath "/pics/2020.jpg").path ∉ FS.denied ⟨["/pics/2020.jpg"], []⟩ ∧
      joinPath (File.ofPath "/pics/2020.jpg").dir
          ("2020" ++ (splitext (File.ofPath "/pics/2020.jpg").name).2) =
        (File.ofPath "/pics/2020.jpg").path) ∧
    (((File.ofPath "/pics/2020.jpg").rename ⟨["/pics/2020.jpg"], []⟩ "2020").result =
        .ok ⟨["/pics/2020.jpg"], []⟩ ∧
      ((File.ofPath "/pics/2020.jpg").rename ⟨["/pics/2020.jpg"], []⟩ "2020").file.path =
        (File.ofPath "/pics/2020.jpg").path ∧
      ((File.ofPath "/pics/2020.jpg").rename ⟨["/pics/2020.jpg"], []⟩ "2020").notice =
        ((File.ofPath "/pics/2020.jpg").name,
          "2020" ++ (splitext (File.ofPath "/pics/2020.jpg").name).2)) :=
  ⟨⟨by decide, by decide⟩,
    C7_self_rename_is_no_op (File.ofPath "/pics/2020.jpg")
      ⟨["/pics/2020.jpg"], []⟩ "2020" (by decide) (by decide)⟩
